import Mathlib

/-!
Verification development for the database administration toolkit
(health check, cleanup, backup/restore, monitor scripts).

The definitions below are a shallow embedding of the TypeScript/JavaScript
sources:

* `toInt32`, `hashStep`, `jsHash`, `simpleHash` embed the checksum function
  `simpleHash` of `src/scripts/db/restore.ts` (lines 318-326) and of the
  backup script.  JavaScript strings are modelled as lists of UTF-16 code
  units (`List Nat`); the 32-bit signed wrap-around performed by the JS
  bitwise operators is made explicit through `toInt32`.  The source renders
  the final value as `Math.abs(hash).toString(16).padStart(16, "0")`; since
  that rendering is injective on natural numbers, the checksum is modelled
  as the natural number `(jsHash s).natAbs`.

* `ServiceRequest` embeds the record interface of `src/scripts/db/config.ts`
  (lines 116-132).  Timestamps are kept as the ISO strings the store
  delivers; the JavaScript `Date` conversions appearing in the sources are
  supplied by a `JsEnv` value.

* The restore, cleanup, health and monitor models follow in later sections.
-/

/-- Environment of JavaScript primitives used by the scripts but external to
them: the current clock (`Date.now()`), `new Date(s).getTime()`,
`new Date(s).toDateString()` and the email regular expression test.  The
scripts are modelled as functions parametrised by such an environment. -/
structure JsEnv where
  now : Int
  getTime : String → Int
  dateStr : String → String
  emailOk : String → Bool

/-- Record of the `service_requests` table, from the `ServiceRequest`
interface in `src/scripts/db/config.ts`.  `status` and `priority` are plain
strings: the cleanup script exists precisely because out-of-range values
occur in the store. -/
structure ServiceRequest where
  id : String
  first_name : String
  last_name : String
  email : String
  phone : String
  service_type : String
  description : String
  status : String
  priority : String
  notes : Option String
  assigned_to : Option String
  estimated_value : Option Int
  created_at : String
  updated_at : String
  completed_at : Option String
deriving DecidableEq

instance : Inhabited ServiceRequest :=
  ⟨⟨"", "", "", "", "", "", "", "", "", none, none, none, "", "", none⟩⟩

/-- Signed 32-bit wrap-around: the coercion applied by the JavaScript
bitwise operators (`<<`, `&`). -/
def toInt32 (x : Int) : Int :=
  (x + 2 ^ 31) % 2 ^ 32 - 2 ^ 31

/-- One iteration of the `simpleHash` loop of `src/scripts/db/restore.ts`:
`hash = ((hash << 5) - hash) + char; hash = hash & hash`.  `hash << 5`
wraps to 32 bits, and `hash & hash` wraps the sum again. -/
def hashStep (h : Int) (c : Nat) : Int :=
  toInt32 (toInt32 (h * 32) - h + (c : Int))

/-- The signed 32-bit hash accumulated by `simpleHash` over a JS string
(list of UTF-16 code units). -/
def jsHash (s : List Nat) : Int :=
  s.foldl hashStep 0

/-- The checksum value produced by `simpleHash`: `Math.abs(hash)`.  The
source then prints this number as zero-padded hexadecimal; that rendering
is injective, so the checksum is modelled by the number itself. -/
def simpleHash (s : List Nat) : Nat :=
  (jsHash s).natAbs

/-- Options of the restore script (`parseArgs` in
`src/scripts/db/restore.ts`, lines 59-79). -/
structure RestoreOptions where
  file : Option String
  dryRun : Bool
  force : Bool
deriving DecidableEq

/-- One `args.forEach` iteration of the restore `parseArgs`. -/
def restoreArgStep (o : RestoreOptions) (a : String) : RestoreOptions :=
  let o := if a.startsWith ("--file=") then { o with file := some (a.drop 7) } else o
  let o := if a = "--dry-run" then { o with dryRun := true } else o
  if a = "--force" then { o with force := true } else o

/-- Argument parsing of the restore script: `--file=`, `--dry-run`
and `--force`. -/
def restoreParseArgs (args : List String) : RestoreOptions :=
  args.foldl restoreArgStep ⟨none, false, false⟩

/-- A parsed backup file (`BackupData` in `src/scripts/db/restore.ts`,
lines 33-51): the checksum stored in the metadata, the serialized form of
the `data` section (`JSON.stringify(backupData.data)`, the string the
checksum is recomputed over, kept explicitly since JSON serialization is
not modelled), and the `service_requests` record array of the payload. -/
structure BackupData where
  checksum : Nat
  dataString : List Nat
  records : List ServiceRequest

/-- Store semantics of one `upsert(request, ⟨onConflict: id,
ignoreDuplicates: true⟩)` call of `executeRestore`: a record whose id is
already present is ignored, otherwise the record is inserted. -/
def upsertIgnoreDup (store : List ServiceRequest) (r : ServiceRequest) :
    List ServiceRequest × Bool :=
  if store.any (fun s => s.id == r.id) then (store, false)
  else (store ++ [r], true)

/-- One iteration of the restore loop acting on the store state and the
count of net new rows. -/
def restoreStep (acc : List ServiceRequest × Nat) (r : ServiceRequest) :
    List ServiceRequest × Nat :=
  let (st', ins) := upsertIgnoreDup acc.1 r
  (st', if ins then acc.2 + 1 else acc.2)

/-- Effect of `executeRestore` (`src/scripts/db/restore.ts`, lines 255-316)
on the store: every backup record is upserted sequentially; the second
component counts the records actually inserted (net new rows). -/
def executeRestoreStore (store : List ServiceRequest) (reqs : List ServiceRequest) :
    List ServiceRequest × Nat :=
  reqs.foldl restoreStep (store, 0)

/-- Response of the store client to one upsert call, as seen by the
`try`/`catch` and `error` handling of `executeRestore`: success, an error
object carrying a message, or a thrown exception. -/
inductive UpsertResp
  | ok : UpsertResp
  | errMsg : String → UpsertResp
  | thrown : UpsertResp
deriving DecidableEq

/-- Outcome recorded for one backup record by `executeRestore`. -/
inductive RestoreOutcome
  | inserted
  | skipped
  | errored
deriving DecidableEq

/-- The `error.message.includes("duplicate") || error.message.includes("unique")`
test of `executeRestore`. -/
def msgMentionsDuplicate (m : String) : Bool :=
  1 < (m.splitOn ("duplicate")).length || 1 < (m.splitOn ("unique")).length

/-- Classification of one record by `executeRestore` (lines 267-297): no
error counts as inserted; an error mentioning a duplicate/unique violation
counts as skipped; any other error or thrown exception is counted and the
loop continues. -/
def classifyUpsert (resp : UpsertResp) : RestoreOutcome :=
  match resp with
  | .ok => .inserted
  | .errMsg m => if msgMentionsDuplicate m then .skipped else .errored
  | .thrown => .errored

/-- Update of the three counters of `executeRestore` (`inserted`,
`skipped`, `errors`) for one record and the response the store client
produced for it. -/
def restoreCountStep (acc : Nat × Nat × Nat) (pr : ServiceRequest × UpsertResp) :
    Nat × Nat × Nat :=
  match classifyUpsert pr.2 with
  | .inserted => (acc.1 + 1, acc.2.1, acc.2.2)
  | .skipped => (acc.1, acc.2.1 + 1, acc.2.2)
  | .errored => (acc.1, acc.2.1, acc.2.2 + 1)

/-- The three counters of `executeRestore` accumulated over the backup
records, each record paired with the response the store client produced
for it. -/
def executeRestoreCounts (reqs : List ServiceRequest) (resps : List UpsertResp) :
    Nat × Nat × Nat :=
  (reqs.zip resps).foldl restoreCountStep (0, 0, 0)

/-- Result of one run of `restoreBackup` (`src/scripts/db/restore.ts`,
lines 81-168) on an already-parsed backup file, in live or dry-run mode. -/
structure RestoreRunResult where
  finalStore : List ServiceRequest
  mismatchReported : Bool
  promptShown : Bool
  executed : Bool
deriving DecidableEq

/-- Control flow of `restoreBackup` after the backup file has been parsed:
recompute the checksum and compare with the metadata; on mismatch warn and,
without `--force`, abort; in dry-run mode stop before mutating; otherwise
ask for confirmation unless `--force` is given, and run `executeRestore`. -/
def restoreRun (opts : RestoreOptions) (b : BackupData) (answer : Bool)
    (store : List ServiceRequest) : RestoreRunResult :=
  let mismatch := simpleHash b.dataString ≠ b.checksum
  if mismatch ∧ opts.force = false then
    ⟨store, true, false, false⟩
  else if opts.dryRun then
    ⟨store, decide mismatch, false, false⟩
  else if opts.force = false then
    if answer then
      ⟨(executeRestoreStore store b.records).1, decide mismatch, true, true⟩
    else
      ⟨store, decide mismatch, true, false⟩
  else
    ⟨(executeRestoreStore store b.records).1, decide mismatch, false, true⟩

example : simpleHash [104, 105] = 3329 := by decide

example :
    executeRestoreStore [] [default, default] = ([default], 1) := by
  decide

/-- Options of the cleanup script (`parseArgs` in the cleanup source,
lines 102-125).  Note that there is no `force` field: the cleanup command
recognises no `--force` flag. -/
structure CleanupOptions where
  dryRun : Bool
  fixStatus : Bool
  fixPriority : Bool
  removeOld : Option Int
  removeOrphans : Bool
  removeCancelled : Bool
deriving DecidableEq

/-- One `args.forEach` iteration of the cleanup `parseArgs`.  Note the
absence of any `--force` case. -/
def cleanupArgStep (o : CleanupOptions) (a : String) : CleanupOptions :=
  let o := if a = "--dry-run" then { o with dryRun := true } else o
  let o := if a = "--fix-status" then { o with fixStatus := true } else o
  let o := if a = "--fix-priority" then { o with fixPriority := true } else o
  let o := if a = "--remove-orphans" then { o with removeOrphans := true } else o
  let o := if a = "--remove-cancelled" then { o with removeCancelled := true } else o
  if a.startsWith ("--remove-old=") then { o with removeOld := (a.drop 13).toInt? } else o

/-- Argument parsing of the cleanup script.  `parseInt` on the
`--remove-old=` value is modelled by `String.toInt?`. -/
def cleanupParseArgs (args : List String) : CleanupOptions :=
  args.foldl cleanupArgStep ⟨false, false, false, none, false, false⟩

/-- The report assembled by `analyzeData` (cleanup source, lines 93-100 and
195-250): six partitions of the fetched records. -/
structure CleanupReport where
  invalidStatus : List ServiceRequest
  invalidPriority : List ServiceRequest
  invalidEmail : List ServiceRequest
  oldRecords : List ServiceRequest
  cancelledRecords : List ServiceRequest
  duplicates : List ServiceRequest
deriving DecidableEq

def emptyReport : CleanupReport :=
  ⟨[], [], [], [], [], []⟩

def validStatuses : List String :=
  ["pending", "in_progress", "completed", "cancelled"]

def validPriorities : List String :=
  ["low", "normal", "high", "urgent"]

/-- The duplicate correlation key of `analyzeData`:
`record.email + "-" + record.service_type + "-" + new Date(record.created_at).toDateString()`. -/
def dupKey (env : JsEnv) (r : ServiceRequest) : String :=
  r.email ++ "-" ++ r.service_type ++ "-" ++ env.dateStr r.created_at

/-- JavaScript truthiness of `options.removeOld` (`null` and `0` are
falsy). -/
def removeOldActive (o : Option Int) : Bool :=
  match o with
  | none => false
  | some k => k ≠ 0

/-- The `daysOld > options.removeOld && record.status === "completed"` test
of `analyzeData`, with `daysOld = (Date.now() - createdAt.getTime()) /
86400000` cleared of its (exact) division. -/
def isOldRecord (env : JsEnv) (opts : CleanupOptions) (r : ServiceRequest) : Bool :=
  match opts.removeOld with
  | none => false
  | some k =>
      k ≠ 0 && (env.now - env.getTime r.created_at > k * 86400000) && r.status == "completed"

/-- One iteration of the `data.forEach` loop of `analyzeData`: the record
is appended to each partition whose test it fails, and the duplicate key is
recorded in the `emailsSeen` set (modelled as a list used only through
membership). -/
def analyzeStep (env : JsEnv) (opts : CleanupOptions)
    (acc : CleanupReport × List String) (r : ServiceRequest) :
    CleanupReport × List String :=
  let (rep, seen) := acc
  let key := dupKey env r
  let rep :=
    { invalidStatus := rep.invalidStatus ++ (if validStatuses.contains r.status then [] else [r])
      invalidPriority :=
        rep.invalidPriority ++ (if validPriorities.contains r.priority then [] else [r])
      invalidEmail :=
        rep.invalidEmail ++ (if r.email = "" ∨ env.emailOk r.email = false then [r] else [])
      oldRecords := rep.oldRecords ++ (if isOldRecord env opts r then [r] else [])
      cancelledRecords :=
        rep.cancelledRecords ++
          (if opts.removeCancelled && r.status == "cancelled" then [r] else [])
      duplicates := rep.duplicates ++ (if seen.contains key then [r] else []) }
  (rep, if seen.contains key then seen else key :: seen)

/-- `analyzeData(data, options)` (cleanup source, lines 195-250): a pure
pass over the fetched records. -/
def analyzeData (env : JsEnv) (data : List ServiceRequest) (opts : CleanupOptions) :
    CleanupReport :=
  (data.foldl (analyzeStep env opts) (emptyReport, [])).1

/-- Total number of issues found, as summed in `runCleanup`
(lines 163-169). -/
def totalIssues (rep : CleanupReport) : Nat :=
  rep.invalidStatus.length + rep.invalidPriority.length + rep.invalidEmail.length +
    rep.oldRecords.length + rep.cancelledRecords.length + rep.duplicates.length

/-- Number of actions listed by `confirmCleanup` (lines 302-343): the email
partition is advisory, so it is not counted; when this is zero
`confirmCleanup` returns `false` without prompting. -/
def totalActions (rep : CleanupReport) : Nat :=
  rep.invalidStatus.length + rep.invalidPriority.length + rep.oldRecords.length +
    rep.cancelledRecords.length + rep.duplicates.length

/-- Store effect of `update(⟨status: "pending"⟩).eq("id", record.id)`. -/
def setStatusPending (store : List ServiceRequest) (i : String) : List ServiceRequest :=
  store.map (fun r => if r.id = i then { r with status := "pending" } else r)

/-- Store effect of `update(⟨priority: "normal"⟩).eq("id", record.id)`. -/
def setPriorityNormal (store : List ServiceRequest) (i : String) : List ServiceRequest :=
  store.map (fun r => if r.id = i then { r with priority := "normal" } else r)

/-- Store effect of `delete().eq("id", record.id)`. -/
def deleteById (store : List ServiceRequest) (i : String) : List ServiceRequest :=
  store.filter (fun r => r.id ≠ i)

/-- Store effect of `executeCleanup(report, options)` (cleanup source,
lines 345-444): fix invalid statuses, fix invalid priorities, then delete
old records (when `--remove-old` is active), cancelled records (when
`--remove-cancelled` is given) and duplicates. -/
def executeCleanup (rep : CleanupReport) (opts : CleanupOptions)
    (store : List ServiceRequest) : List ServiceRequest :=
  let s := rep.invalidStatus.foldl (fun st r => setStatusPending st r.id) store
  let s := rep.invalidPriority.foldl (fun st r => setPriorityNormal st r.id) s
  let s :=
    if removeOldActive opts.removeOld then
      rep.oldRecords.foldl (fun st r => deleteById st r.id) s
    else s
  let s :=
    if opts.removeCancelled then
      rep.cancelledRecords.foldl (fun st r => deleteById st r.id) s
    else s
  rep.duplicates.foldl (fun st r => deleteById st r.id) s

/-- Result of one run of `runCleanup`. -/
structure CleanupRunResult where
  finalStore : List ServiceRequest
  promptShown : Bool
  reportMade : Option CleanupReport
deriving DecidableEq

/-- Control flow of `runCleanup` (cleanup source, lines 127-193).
`fetched` is the record list the store client returned for the
`select * order by created_at desc` query (the ordering itself is chosen by
the remote store and left abstract); `fetchFails` models a query error;
`answer` is the interactive confirmation answer.  In dry-run mode the
mutation block is never entered; otherwise `confirmCleanup` prompts exactly
when it has actions to list, and `executeCleanup` runs only on a positive
answer. -/
def runCleanup (env : JsEnv) (opts : CleanupOptions) (answer : Bool)
    (store fetched : List ServiceRequest) (fetchFails : Bool) : CleanupRunResult :=
  if fetchFails then ⟨store, false, none⟩
  else if fetched.isEmpty then ⟨store, false, none⟩
  else
    let rep := analyzeData env fetched opts
    if totalIssues rep = 0 then ⟨store, false, some rep⟩
    else if opts.dryRun then ⟨store, false, some rep⟩
    else if totalActions rep = 0 then ⟨store, false, some rep⟩
    else if answer then ⟨executeCleanup rep opts store, true, some rep⟩
    else ⟨store, true, some rep⟩

/-- Status of one health check of the tsx health script
(`src/unnamed/part_012`). -/
inductive HStatus
  | pass
  | warn
  | fail
  | info
deriving DecidableEq

/-- A `HealthCheckResult` of the tsx health script (lines 23-31); timing
and free-text fields are kept as data. -/
structure HealthCheckResult where
  name : String
  category : String
  status : HStatus
  message : String
deriving DecidableEq

/-- The overall label computed by `printSummary` of the tsx health script
(lines 522-525): CRITICO when any check failed, else ATENCAO above two
warnings, else BOM on any warning, else SAUDAVEL. -/
def summaryStatusLabel (rs : List HealthCheckResult) : String :=
  if 0 < (rs.filter (fun r => r.status = HStatus.fail)).length then "CRÍTICO"
  else if 2 < (rs.filter (fun r => r.status = HStatus.warn)).length then "ATENÇÃO"
  else if 0 < (rs.filter (fun r => r.status = HStatus.warn)).length then "BOM"
  else "SAUDÁVEL"

/-- The colour class attached to the overall label by `printSummary`:
red for the fail-level verdict, yellow for both warn-level verdicts,
green for the pass-level verdict. -/
def summaryColor (rs : List HealthCheckResult) : String :=
  if 0 < (rs.filter (fun r => r.status = HStatus.fail)).length then "red"
  else if 2 < (rs.filter (fun r => r.status = HStatus.warn)).length then "yellow"
  else if 0 < (rs.filter (fun r => r.status = HStatus.warn)).length then "yellow"
  else "green"

/-- Status of one check of `src/scripts/db/db-health.js`: the
`HealthChecker` class records `success`, `warning` or `error`. -/
inductive DbStatus
  | success
  | warning
  | error
deriving DecidableEq

/-- A result row collected by `HealthChecker.addResult` in
`db-health.js`. -/
structure DbCheckResult where
  name : String
  status : DbStatus
  message : String
deriving DecidableEq

/-- The overall banner printed by `displayResults` of `db-health.js`
(lines 425-431). -/
def dbHealthBanner (rs : List DbCheckResult) : String :=
  if 0 < (rs.filter (fun r => r.status = DbStatus.error)).length then "SISTEMA COM PROBLEMAS"
  else if 0 < (rs.filter (fun r => r.status = DbStatus.warning)).length then "SISTEMA COM AVISOS"
  else "SISTEMA SAUDÁVEL"

/-- Process exit code after a completed `runHealthCheck()` run of the tsx
health script: the script never calls `process.exit` and never assigns
`process.exitCode`, and its top-level rejection handler is
`runHealthCheck().catch(console.error)`, so the node process terminates
with code 0 whatever the collected results were. -/
def runHealthCheckExitCode (rs : List HealthCheckResult) : Nat :=
  let _ := rs
  0

/-- Process exit code of `main()` in `db-health.js` (lines 440-450): 1 when
an exception escapes `runAllChecks` (the `catch` branch calls
`process.exit(1)`), otherwise the process falls off the end of `main` and
exits 0; `displayResults` inspects the results only to choose the banner. -/
def dbHealthMainExitCode (fatal : Bool) (rs : List DbCheckResult) : Nat :=
  let _ := rs
  if fatal then 1 else 0

/-- Change event type of the monitor (`src/scripts/db/monitor.ts`,
lines 44-48). -/
inductive ChangeType
  | insert
  | update
  | delete
deriving DecidableEq

/-- A `ChangeEvent` of the monitor: type and record snapshot (the wall
clock timestamp is not modelled). -/
structure ChangeEvent where
  type : ChangeType
  record : ServiceRequest
deriving DecidableEq

/-- The update check of `DatabaseMonitor.detectChanges` (monitor source,
lines 175-180): an id present on both sides whose `updated_at` changed
produces an UPDATE event. -/
def updateEvent (prev : List ServiceRequest) (n : ServiceRequest) : Option ChangeEvent :=
  match prev.find? (fun p => p.id == n.id) with
  | some o => if o.updated_at ≠ n.updated_at then some ⟨ChangeType.update, n⟩ else none
  | none => none

/-- The three loops of `detectChanges` in order: inserts, updates,
deletes. -/
def detectChanges (prev newData : List ServiceRequest) : List ChangeEvent :=
  (newData.filter (fun r => !(prev.any (fun p => p.id == r.id)))).map
      (fun r => ⟨ChangeType.insert, r⟩) ++
    newData.filterMap (updateEvent prev) ++
    (prev.filter (fun p => !(newData.any (fun r => r.id == p.id)))).map
      (fun r => ⟨ChangeType.delete, r⟩)

/-- `DatabaseMonitor.addChange`: the event is unshifted onto
`recentChanges` and the history is capped at 10 entries. -/
def pushChange (recent : List ChangeEvent) (e : ChangeEvent) : List ChangeEvent :=
  (e :: recent).take 10

/-- Connection state recorded by the monitor. -/
inductive ConnStatus
  | connected
  | disconnected
  | checking
deriving DecidableEq

/-- The change events emitted by one `DatabaseMonitor.update()` tick
(monitor source, lines 118-161): none when the fetch errored, and none
when the stored previous snapshot is empty, because `detectChanges` is
guarded by `this.previousData.length > 0`. -/
def monitorTickEvents (prev : List ServiceRequest)
    (fetched : Option (List ServiceRequest)) : List ChangeEvent :=
  match fetched with
  | none => []
  | some data => if 0 < prev.length then detectChanges prev data else []

/-- The stored snapshot initialised by the `DatabaseMonitor` constructor:
`previousData = []`. -/
def initialPreviousData : List ServiceRequest :=
  []

/-- State transition of one `DatabaseMonitor.update()` tick: on a fetch
error the method returns early keeping the previous snapshot and history
and marking the connection disconnected; on success the emitted events are
pushed onto the bounded history and the fetched data becomes the stored
snapshot. -/
def monitorTick (prev : List ServiceRequest) (fetched : Option (List ServiceRequest))
    (recent : List ChangeEvent) :
    List ServiceRequest × List ChangeEvent × ConnStatus :=
  match fetched with
  | none => (prev, recent, ConnStatus.disconnected)
  | some data =>
      (data, (monitorTickEvents prev (some data)).foldl pushChange recent,
        ConnStatus.connected)

/-- Sample record builder used by concrete witnesses. -/
def mkReq (i em st : String) : ServiceRequest :=
  ⟨i, "Ana", "Lima", em, "11987654321", "excel", "aula", st, "normal", none, none, none,
    "2025-01-01T00:00:00Z", "2025-01-02T00:00:00Z", none⟩

/-- Sample JavaScript environment used by concrete witnesses. -/
def envW : JsEnv :=
  ⟨1757404800000, fun _ => 1735689600000, fun s => s.take 10, fun _ => true⟩

/-- Helper: a list filtered to a positive length contains a witness of the
predicate. -/
theorem filter_length_pos_iff {α : Type} (p : α → Bool) (l : List α) :
    0 < (l.filter p).length ↔ ∃ a ∈ l, p a = true := by
  rw [List.length_pos]
  constructor
  · intro h
    rcases List.exists_mem_of_ne_nil _ h with ⟨a, ha⟩
    exact ⟨a, (List.mem_filter.mp ha).1, (List.mem_filter.mp ha).2⟩
  · rintro ⟨a, ha, hpa⟩ hnil
    exact (List.eq_nil_iff_forall_not_mem.mp hnil a) (List.mem_filter.mpr ⟨ha, hpa⟩)

/-- C3: for every store state, running cleanup with the `--dry-run` flag
performs no insert, update or delete: the final store is the store the run
started from, no confirmation is requested, and any analysis performed is
exactly the pure function `analyzeData` of the fetched records. -/
theorem cleanup_dry_run_no_mutation (env : JsEnv) (opts : CleanupOptions) (answer : Bool)
    (store fetched : List ServiceRequest) (fetchFails : Bool)
    (h : opts.dryRun = true) :
    (runCleanup env opts answer store fetched fetchFails).finalStore = store ∧
    (runCleanup env opts answer store fetched fetchFails).promptShown = false ∧
    ((runCleanup env opts answer store fetched fetchFails).reportMade = none ∨
      (runCleanup env opts answer store fetched fetchFails).reportMade =
        some (analyzeData env fetched opts)) := by
  unfold runCleanup
  split_ifs <;> simp_all

/-- C3 witness: a concrete dry run over a one-record store with an invalid
status leaves the store untouched. -/
theorem cleanup_dry_run_no_mutation_witness :
    (runCleanup envW ⟨true, false, false, none, false, false⟩ true
        [mkReq "1" "ana@example.com" "bogus"] [mkReq "1" "ana@example.com" "bogus"]
        false).finalStore = [mkReq "1" "ana@example.com" "bogus"] :=
  (cleanup_dry_run_no_mutation envW ⟨true, false, false, none, false, false⟩ true
    [mkReq "1" "ana@example.com" "bogus"] [mkReq "1" "ana@example.com" "bogus"]
    false rfl).1

/-- Helper: the counter triple of the restore loop grows by exactly one
unit per processed record. -/
theorem restoreCounts_foldl_sum (l : List (ServiceRequest × UpsertResp)) :
    ∀ i s e : Nat,
      (l.foldl restoreCountStep (i, s, e)).1 + (l.foldl restoreCountStep (i, s, e)).2.1 +
          (l.foldl restoreCountStep (i, s, e)).2.2 = i + s + e + l.length := by
  induction l with
  | nil => intro i s e; simp
  | cons hd tl ih =>
      intro i s e
      simp only [List.foldl_cons, List.length_cons]
      rcases hc : classifyUpsert hd.2 <;>
        simp only [restoreCountStep, hc] <;> rw [ih] <;> omega

/-- Helper: the counter components equal the occurrence counts of the
corresponding outcomes. -/
theorem restoreCounts_foldl_count (l : List (ServiceRequest × UpsertResp)) :
    ∀ i s e : Nat,
      (l.foldl restoreCountStep (i, s, e)).1 =
          i + ((l.map (fun pr => classifyUpsert pr.2)).count RestoreOutcome.inserted) ∧
        (l.foldl restoreCountStep (i, s, e)).2.1 =
          s + ((l.map (fun pr => classifyUpsert pr.2)).count RestoreOutcome.skipped) ∧
        (l.foldl restoreCountStep (i, s, e)).2.2 =
          e + ((l.map (fun pr => classifyUpsert pr.2)).count RestoreOutcome.errored) := by
  induction l with
  | nil => intro i s e; simp
  | cons hd tl ih =>
      intro i s e
      simp only [List.foldl_cons, List.map_cons]
      rcases hc : classifyUpsert hd.2 <;>
        simp only [restoreCountStep, hc, List.count_cons] <;>
        rcases ih (i + 1) s e with ⟨ih1, ih2, ih3⟩ <;>
        rcases ih i (s + 1) e with ⟨jh1, jh2, jh3⟩ <;>
        rcases ih i s (e + 1) with ⟨kh1, kh2, kh3⟩ <;>
        simp_all <;> omega

/-- C7: during a live restore every backup record is classified into
exactly one of the outcomes inserted, skipped or errored (a per-record
error only bumps the error counter, the loop always finishes), and the
final counters satisfy inserted + skipped + errored = number of records. -/
theorem executeRestore_outcome_partition (reqs : List ServiceRequest)
    (resps : List UpsertResp) (h : resps.length = reqs.length) :
    ((reqs.zip resps).map (fun pr => classifyUpsert pr.2)).length = reqs.length ∧
    (executeRestoreCounts reqs resps).1 =
      ((reqs.zip resps).map (fun pr => classifyUpsert pr.2)).count RestoreOutcome.inserted ∧
    (executeRestoreCounts reqs resps).2.1 =
      ((reqs.zip resps).map (fun pr => classifyUpsert pr.2)).count RestoreOutcome.skipped ∧
    (executeRestoreCounts reqs resps).2.2 =
      ((reqs.zip resps).map (fun pr => classifyUpsert pr.2)).count RestoreOutcome.errored ∧
    (executeRestoreCounts reqs resps).1 + (executeRestoreCounts reqs resps).2.1 +
      (executeRestoreCounts reqs resps).2.2 = reqs.length := by
  have hlen : (reqs.zip resps).length = reqs.length := by
    rw [List.length_zip, h, Nat.min_self]
  have hsum := restoreCounts_foldl_sum (reqs.zip resps) 0 0 0
  have hcnt := restoreCounts_foldl_count (reqs.zip resps) 0 0 0
  refine ⟨by simpa using hlen, ?_, ?_, ?_, ?_⟩
  · simpa using hcnt.1
  · simpa using hcnt.2.1
  · simpa using hcnt.2.2
  · simpa [executeRestoreCounts, hlen] using hsum

/-- C7 witness: three records answered by a success, a duplicate-key error
and a thrown exception give one inserted, one skipped, one errored. -/
theorem executeRestore_outcome_partition_witness :
    (executeRestoreCounts
        [mkReq "1" "a@b.co" "pending", mkReq "2" "c@d.co" "pending",
          mkReq "3" "e@f.co" "pending"]
        [UpsertResp.ok, UpsertResp.errMsg "duplicate key value violates unique constraint",
          UpsertResp.thrown]).1 +
      (executeRestoreCounts
        [mkReq "1" "a@b.co" "pending", mkReq "2" "c@d.co" "pending",
          mkReq "3" "e@f.co" "pending"]
        [UpsertResp.ok, UpsertResp.errMsg "duplicate key value violates unique constraint",
          UpsertResp.thrown]).2.1 +
      (executeRestoreCounts
        [mkReq "1" "a@b.co" "pending", mkReq "2" "c@d.co" "pending",
          mkReq "3" "e@f.co" "pending"]
        [UpsertResp.ok, UpsertResp.errMsg "duplicate key value violates unique constraint",
          UpsertResp.thrown]).2.2 = 3 :=
  (executeRestore_outcome_partition
    [mkReq "1" "a@b.co" "pending", mkReq "2" "c@d.co" "pending",
      mkReq "3" "e@f.co" "pending"]
    [UpsertResp.ok, UpsertResp.errMsg "duplicate key value violates unique constraint",
      UpsertResp.thrown] (by decide)).2.2.2.2

/-- C10: a monitor tick whose stored previous snapshot is empty — the
first tick after startup, or any tick after a fetch that returned zero
records — emits no change event whatever the new snapshot contains, and
change events can only arise from a tick whose previous snapshot was
non-empty; a tick that fetches zero records stores the empty snapshot. -/
theorem monitor_empty_snapshot_no_events :
    (∀ data : List ServiceRequest, monitorTickEvents initialPreviousData (some data) = []) ∧
    (∀ (data : List ServiceRequest) (recent : List ChangeEvent),
        monitorTick initialPreviousData (some data) recent =
          (data, recent, ConnStatus.connected)) ∧
    (∀ (prev : List ServiceRequest) (fetched : Option (List ServiceRequest)),
        monitorTickEvents prev fetched ≠ [] → prev ≠ []) ∧
    (∀ (prev : List ServiceRequest) (recent : List ChangeEvent),
        (monitorTick prev (some []) recent).1 = []) := by
  refine ⟨?_, ?_, ?_, ?_⟩
  · intro data
    simp [monitorTickEvents, initialPreviousData]
  · intro data recent
    simp [monitorTick, monitorTickEvents, initialPreviousData]
  · intro prev fetched hne
    intro hprev
    subst hprev
    rcases fetched with _ | data
    · exact hne rfl
    · simp [monitorTickEvents] at hne
  · intro prev recent
    simp [monitorTick]

/-- C10 witness: a change-producing tick (one insert, one delete) forces a
non-empty previous snapshot. -/
theorem monitor_empty_snapshot_no_events_witness :
    ([mkReq "1" "a@b.co" "pending"] : List ServiceRequest) ≠ [] :=
  monitor_empty_snapshot_no_events.2.2.1 [mkReq "1" "a@b.co" "pending"]
    (some [mkReq "2" "c@d.co" "pending"]) (by decide)


/-- Helper: class characterization of the overall verdict of the tsx
health engine. -/
theorem summaryVerdict_classes (rs : List HealthCheckResult) :
    (summaryColor rs = "red" ↔ ∃ r ∈ rs, r.status = HStatus.fail) ∧
    (summaryColor rs = "yellow" ↔
      (¬ ∃ r ∈ rs, r.status = HStatus.fail) ∧ ∃ r ∈ rs, r.status = HStatus.warn) ∧
    (summaryColor rs = "green" ↔
      (¬ ∃ r ∈ rs, r.status = HStatus.fail) ∧ ¬ ∃ r ∈ rs, r.status = HStatus.warn) ∧
    (summaryStatusLabel rs = "CRÍTICO" ↔ ∃ r ∈ rs, r.status = HStatus.fail) ∧
    ((summaryStatusLabel rs = "ATENÇÃO" ∨ summaryStatusLabel rs = "BOM") ↔
      (¬ ∃ r ∈ rs, r.status = HStatus.fail) ∧ ∃ r ∈ rs, r.status = HStatus.warn) ∧
    (summaryStatusLabel rs = "SAUDÁVEL" ↔
      (¬ ∃ r ∈ rs, r.status = HStatus.fail) ∧ ¬ ∃ r ∈ rs, r.status = HStatus.warn) := by
  have hf := filter_length_pos_iff (fun r => decide (r.status = HStatus.fail)) rs
  have hw := filter_length_pos_iff (fun r => decide (r.status = HStatus.warn)) rs
  simp only [decide_eq_true_eq] at hf hw
  unfold summaryColor summaryStatusLabel
  by_cases hF : ∃ r ∈ rs, r.status = HStatus.fail
  · rw [if_pos (hf.mpr hF), if_pos (hf.mpr hF)]
    refine ⟨?_, ?_, ?_, ?_, ?_, ?_⟩ <;> simp [hF]
  · have hf0 : ¬ 0 < (rs.filter (fun r => decide (r.status = HStatus.fail))).length :=
      fun h => hF (hf.mp h)
    rw [if_neg hf0, if_neg hf0]
    by_cases hW : ∃ r ∈ rs, r.status = HStatus.warn
    · by_cases h2 : 2 < (rs.filter (fun r => decide (r.status = HStatus.warn))).length
      · rw [if_pos h2, if_pos h2]
        refine ⟨?_, ?_, ?_, ?_, ?_, ?_⟩ <;> simp [hF, hW]
      · rw [if_neg h2, if_neg h2, if_pos (hw.mpr hW), if_pos (hw.mpr hW)]
        refine ⟨?_, ?_, ?_, ?_, ?_, ?_⟩ <;> simp [hF, hW]
    · have hw0 : ¬ 0 < (rs.filter (fun r => decide (r.status = HStatus.warn))).length :=
        fun h => hW (hw.mp h)
      have h2 : ¬ 2 < (rs.filter (fun r => decide (r.status = HStatus.warn))).length :=
        fun h => hw0 (Nat.lt_of_lt_of_le (by omega) (Nat.le_of_lt h))
      rw [if_neg h2, if_neg h2, if_neg hw0, if_neg hw0]
      refine ⟨?_, ?_, ?_, ?_, ?_, ?_⟩ <;> simp [hF, hW]

/-- Helper: class characterization of the overall banner of
`db-health.js`. -/
theorem dbBanner_classes (ds : List DbCheckResult) :
    (dbHealthBanner ds = "SISTEMA COM PROBLEMAS" ↔ ∃ r ∈ ds, r.status = DbStatus.error) ∧
    (dbHealthBanner ds = "SISTEMA COM AVISOS" ↔
      (¬ ∃ r ∈ ds, r.status = DbStatus.error) ∧ ∃ r ∈ ds, r.status = DbStatus.warning) ∧
    (dbHealthBanner ds = "SISTEMA SAUDÁVEL" ↔
      (¬ ∃ r ∈ ds, r.status = DbStatus.error) ∧
        ¬ ∃ r ∈ ds, r.status = DbStatus.warning) := by
  have he := filter_length_pos_iff (fun r => decide (r.status = DbStatus.error)) ds
  have hg := filter_length_pos_iff (fun r => decide (r.status = DbStatus.warning)) ds
  simp only [decide_eq_true_eq] at he hg
  unfold dbHealthBanner
  by_cases hE : ∃ r ∈ ds, r.status = DbStatus.error
  · rw [if_pos (he.mpr hE)]
    refine ⟨?_, ?_, ?_⟩ <;> simp [hE]
  · have he0 : ¬ 0 < (ds.filter (fun r => decide (r.status = DbStatus.error))).length :=
      fun h => hE (he.mp h)
    rw [if_neg he0]
    by_cases hG : ∃ r ∈ ds, r.status = DbStatus.warning
    · rw [if_pos (hg.mpr hG)]
      refine ⟨?_, ?_, ?_⟩ <;> simp [hE, hG]
    · have hg0 : ¬ 0 < (ds.filter (fun r => decide (r.status = DbStatus.warning))).length :=
        fun h => hG (hg.mp h)
      rw [if_neg hg0]
      refine ⟨?_, ?_, ?_⟩ <;> simp [hE, hG]

/-- C4: the overall verdict of both health engines is the fail-level
verdict exactly when some check failed, a warn-level verdict exactly when
no check failed and some check warned, and the pass-level verdict exactly
when no check failed or warned (`info` results never degrade the verdict).
For the tsx engine the warn level covers its two yellow labels BOM and
ATENCAO, distinguished only by the number of warnings. -/
theorem health_overall_severity_aggregation (rs : List HealthCheckResult)
    (ds : List DbCheckResult) :
    (summaryColor rs = "red" ↔ ∃ r ∈ rs, r.status = HStatus.fail) ∧
    (summaryColor rs = "yellow" ↔
      (¬ ∃ r ∈ rs, r.status = HStatus.fail) ∧ ∃ r ∈ rs, r.status = HStatus.warn) ∧
    (summaryColor rs = "green" ↔
      (¬ ∃ r ∈ rs, r.status = HStatus.fail) ∧ ¬ ∃ r ∈ rs, r.status = HStatus.warn) ∧
    (summaryStatusLabel rs = "CRÍTICO" ↔ ∃ r ∈ rs, r.status = HStatus.fail) ∧
    ((summaryStatusLabel rs = "ATENÇÃO" ∨ summaryStatusLabel rs = "BOM") ↔
      (¬ ∃ r ∈ rs, r.status = HStatus.fail) ∧ ∃ r ∈ rs, r.status = HStatus.warn) ∧
    (summaryStatusLabel rs = "SAUDÁVEL" ↔
      (¬ ∃ r ∈ rs, r.status = HStatus.fail) ∧ ¬ ∃ r ∈ rs, r.status = HStatus.warn) ∧
    (dbHealthBanner ds = "SISTEMA COM PROBLEMAS" ↔ ∃ r ∈ ds, r.status = DbStatus.error) ∧
    (dbHealthBanner ds = "SISTEMA COM AVISOS" ↔
      (¬ ∃ r ∈ ds, r.status = DbStatus.error) ∧ ∃ r ∈ ds, r.status = DbStatus.warning) ∧
    (dbHealthBanner ds = "SISTEMA SAUDÁVEL" ↔
      (¬ ∃ r ∈ ds, r.status = DbStatus.error) ∧
        ¬ ∃ r ∈ ds, r.status = DbStatus.warning) := by
  rcases summaryVerdict_classes rs with ⟨a1, a2, a3, a4, a5, a6⟩
  rcases dbBanner_classes ds with ⟨b1, b2, b3⟩
  exact ⟨a1, a2, a3, a4, a5, a6, b1, b2, b3⟩

/-- C5 counterexample: a run of `db-health.js` whose only check errored has
the fail-level banner SISTEMA COM PROBLEMAS, yet the process exit code is
0 (no exception escaped, and `displayResults` never sets an exit code);
likewise the tsx health script exits 0 on a run containing a failing
check.  This refutes the claim that the health command exits non-zero
exactly when the overall status is fail. -/
theorem health_fail_exit_zero_cex :
    dbHealthBanner [⟨"Conexão Supabase", DbStatus.error, "timeout"⟩] =
        "SISTEMA COM PROBLEMAS" ∧
    dbHealthMainExitCode false [⟨"Conexão Supabase", DbStatus.error, "timeout"⟩] = 0 ∧
    summaryStatusLabel [⟨"Conexão Principal", "Conectividade", HStatus.fail, "erro"⟩] =
        "CRÍTICO" ∧
    runHealthCheckExitCode [⟨"Conexão Principal", "Conectividade", HStatus.fail, "erro"⟩]
        = 0 := by
  refine ⟨rfl, rfl, rfl, rfl⟩

/-- C5 amended: a completed health run always exits 0 whatever the
collected results — the result list influences only the printed banner —
and `main` of `db-health.js` exits non-zero (code 1) exactly when an
exception escaped the check runner. -/
theorem health_exit_code_behavior (f : Bool) (rs : List HealthCheckResult)
    (ds : List DbCheckResult) :
    runHealthCheckExitCode rs = 0 ∧
    dbHealthMainExitCode f ds = (if f then 1 else 0) ∧
    (dbHealthMainExitCode f ds ≠ 0 ↔ f = true) := by
  refine ⟨rfl, rfl, ?_⟩
  cases f <;> simp [dbHealthMainExitCode]

/-- Helper: upserting records whose ids are fresh for the store and
mutually distinct appends them all and counts them as net new rows. -/
theorem executeRestore_foldl_fresh (reqs : List ServiceRequest) :
    ∀ (st : List ServiceRequest) (n : Nat),
      ((st ++ reqs).map ServiceRequest.id).Nodup →
      reqs.foldl restoreStep (st, n) = (st ++ reqs, n + reqs.length) := by
  induction reqs with
  | nil => intro st n _; simp
  | cons hd tl ih =>
      intro st n hnd
      have hfresh : st.any (fun s => s.id == hd.id) = false := by
        rw [List.any_eq_false]
        intro s hs hsid
        have hsid' : s.id = hd.id := by simpa using hsid
        have hmem1 : s.id ∈ st.map ServiceRequest.id := List.mem_map_of_mem _ hs
        have hmem2 : hd.id ∈ (hd :: tl).map ServiceRequest.id := by simp
        have hdisj := (List.nodup_append.mp (by simpa using hnd)).2.2
        exact hdisj (hsid' ▸ hmem1) hmem2
      have hstep : restoreStep (st, n) hd = (st ++ [hd], n + 1) := by
        simp [restoreStep, upsertIgnoreDup, hfresh]
      rw [List.foldl_cons, hstep, ih (st ++ [hd]) (n + 1) (by simpa using hnd)]
      have h1 : (st ++ [hd]) ++ tl = st ++ hd :: tl := by simp
      have h2 : n + 1 + tl.length = n + (hd :: tl).length := by
        simp only [List.length_cons]
        omega
      rw [h1, h2]

/-- Helper: upserting records whose ids are all already present leaves the
store and the net-new counter untouched. -/
theorem executeRestore_foldl_present (reqs : List ServiceRequest) :
    ∀ (st : List ServiceRequest) (n : Nat),
      (∀ r ∈ reqs, ∃ s ∈ st, s.id = r.id) →
      reqs.foldl restoreStep (st, n) = (st, n) := by
  induction reqs with
  | nil => intro st n _; simp
  | cons hd tl ih =>
      intro st n hpres
      rcases hpres hd (List.mem_cons_self hd tl) with ⟨s, hs, hsid⟩
      have hhit : st.any (fun t => t.id == hd.id) = true :=
        List.any_eq_true.mpr ⟨s, hs, by simp [hsid]⟩
      have hstep : restoreStep (st, n) hd = (st, n) := by
        simp [restoreStep, upsertIgnoreDup, hhit]
      rw [List.foldl_cons, hstep, ih st n (fun r hr => hpres r (List.mem_cons_of_mem _ hr))]

/-- C1: restoring a backup whose records carry pairwise distinct ids into
an empty store reproduces exactly the backed-up records (hence the same id
set and field values), and restoring the same backup a second time leaves
the store unchanged with zero net new inserts, because each record goes
through the id-keyed upsert. -/
theorem restore_roundtrip_idempotent (reqs : List ServiceRequest)
    (h : (reqs.map ServiceRequest.id).Nodup) :
    executeRestoreStore [] reqs = (reqs, reqs.length) ∧
    executeRestoreStore reqs reqs = (reqs, 0) := by
  constructor
  · have := executeRestore_foldl_fresh reqs [] 0 (by simpa using h)
    simpa [executeRestoreStore] using this
  · have := executeRestore_foldl_present reqs reqs 0
      (fun r hr => ⟨r, hr, rfl⟩)
    simpa [executeRestoreStore] using this

/-- C1 witness: a two-record backup restores exactly into an empty store
and is a no-op the second time. -/
theorem restore_roundtrip_idempotent_witness :
    executeRestoreStore [] [mkReq "1" "a@b.co" "pending", mkReq "2" "c@d.co" "completed"] =
        ([mkReq "1" "a@b.co" "pending", mkReq "2" "c@d.co" "completed"], 2) ∧
    executeRestoreStore [mkReq "1" "a@b.co" "pending", mkReq "2" "c@d.co" "completed"]
        [mkReq "1" "a@b.co" "pending", mkReq "2" "c@d.co" "completed"] =
      ([mkReq "1" "a@b.co" "pending", mkReq "2" "c@d.co" "completed"], 0) :=
  restore_roundtrip_idempotent
    [mkReq "1" "a@b.co" "pending", mkReq "2" "c@d.co" "completed"] (by decide)

/-- Helper: the cleanup argument parser leaves the options unchanged on the
token `--force`: no branch of `cleanupArgStep` matches it. -/
theorem cleanupArgStep_force (o : CleanupOptions) : cleanupArgStep o "--force" = o := by
  have h1 : ("--force" : String) ≠ "--dry-run" := by decide
  have h2 : ("--force" : String) ≠ "--fix-status" := by decide
  have h3 : ("--force" : String) ≠ "--fix-priority" := by decide
  have h4 : ("--force" : String) ≠ "--remove-orphans" := by decide
  have h5 : ("--force" : String) ≠ "--remove-cancelled" := by decide
  have h6 : ("--force" : String).startsWith ("--remove-old=") = false := by decide
  simp [cleanupArgStep, h1, h2, h3, h4, h5, h6]

/-- Helper: the `force` flag after one restore parse step. -/
theorem restoreArgStep_force (o : RestoreOptions) (a : String) :
    (restoreArgStep o a).force = (o.force || a == "--force") := by
  by_cases h1 : a.startsWith ("--file=") <;> by_cases h2 : a = "--dry-run" <;>
    by_cases h3 : a = "--force" <;> simp [restoreArgStep, h1, h2, h3] <;>
    split <;> simp

/-- Helper: the restore parser sets `force` exactly when some argument is
the literal `--force`. -/
theorem restoreParse_force_aux (args : List String) :
    ∀ o : RestoreOptions,
      ((args.foldl restoreArgStep o).force = true ↔ o.force = true ∨ "--force" ∈ args) := by
  induction args with
  | nil => intro o; simp
  | cons hd tl ih =>
      intro o
      rw [List.foldl_cons, ih (restoreArgStep o hd), restoreArgStep_force]
      constructor
      · rintro (h | h)
        · rcases Bool.or_eq_true_iff.mp h with h' | h'
          · exact Or.inl h'
          · exact Or.inr (by simp [List.mem_cons, beq_iff_eq.mp h'])
        · exact Or.inr (List.mem_cons_of_mem _ h)
      · rintro (h | h)
        · exact Or.inl (by simp [h])
        · rcases List.mem_cons.mp h with h' | h'
          · exact Or.inl (by simp [h'])
          · exact Or.inr h'

/-- C8 counterexample: the cleanup command does not recognise `--force`;
with `--force` on the command line and a store containing one record with
an invalid status, a non-dry-run cleanup still shows the confirmation
prompt, refuting that the prompt is skipped exactly when `--force` is
supplied. -/
theorem cleanup_force_still_prompts_cex :
    ("--force" ∈ ["--force"]) ∧
    cleanupParseArgs ["--force"] = ⟨false, false, false, none, false, false⟩ ∧
    (runCleanup envW (cleanupParseArgs ["--force"]) false
        [mkReq "1" "a@b.co" "bogus"] [mkReq "1" "a@b.co" "bogus"] false).promptShown =
      true := by
  refine ⟨by simp, by decide, by decide⟩

/-- C8 amended: cleanup never mutates the store without showing the
confirmation prompt and receiving a positive answer, and its parser
ignores `--force` entirely; restore mutates only under `--force` or a
shown-and-confirmed prompt, its prompt is shown exactly on a live run with
a matching checksum and no `--force`, and its parser sets `force` exactly
when `--force` is supplied on the command line. -/
theorem confirmation_gate_behavior :
    (∀ (env : JsEnv) (opts : CleanupOptions) (answer : Bool)
        (store fetched : List ServiceRequest) (ff : Bool),
        (runCleanup env opts answer store fetched ff).finalStore ≠ store →
          (runCleanup env opts answer store fetched ff).promptShown = true ∧
            answer = true) ∧
    (∀ args : List String, cleanupParseArgs (args ++ ["--force"]) = cleanupParseArgs args) ∧
    (∀ (opts : RestoreOptions) (b : BackupData) (answer : Bool)
        (store : List ServiceRequest),
        (restoreRun opts b answer store).finalStore ≠ store →
          opts.force = true ∨
            ((restoreRun opts b answer store).promptShown = true ∧ answer = true)) ∧
    (∀ (opts : RestoreOptions) (b : BackupData) (answer : Bool)
        (store : List ServiceRequest),
        (restoreRun opts b answer store).promptShown = true ↔
          simpleHash b.dataString = b.checksum ∧ opts.dryRun = false ∧
            opts.force = false) ∧
    (∀ args : List String, (restoreParseArgs args).force = true ↔ "--force" ∈ args) := by
  refine ⟨?_, ?_, ?_, ?_, ?_⟩
  · intro env opts answer store fetched ff hne
    unfold runCleanup at hne ⊢
    by_cases hI : totalIssues (analyzeData env fetched opts) = 0 <;>
      by_cases hA : totalActions (analyzeData env fetched opts) = 0 <;>
        split_ifs at hne ⊢ <;> simp_all
  · intro args
    unfold cleanupParseArgs
    rw [List.foldl_append]
    simp [cleanupArgStep_force]
  · intro opts b answer store hne
    unfold restoreRun at hne ⊢
    by_cases hm : simpleHash b.dataString = b.checksum <;>
      by_cases hfo : opts.force = false <;>
        split_ifs at hne ⊢ <;> cases answer <;> simp_all
  · intro opts b answer store
    unfold restoreRun
    by_cases hm : simpleHash b.dataString = b.checksum <;>
      by_cases hfo : opts.force = false <;>
        split_ifs <;> cases answer <;> simp_all
  · intro args
    simpa using restoreParse_force_aux args ⟨none, false, false⟩

/-- C8 witness: a confirmed non-dry-run cleanup over a store holding one
record with an invalid status mutates the store, and the amended theorem
certifies that the prompt was shown with a positive answer. -/
theorem confirmation_gate_behavior_witness :
    (runCleanup envW (cleanupParseArgs []) true [mkReq "1" "a@b.co" "bogus"]
        [mkReq "1" "a@b.co" "bogus"] false).promptShown = true ∧ true = true :=
  confirmation_gate_behavior.1 envW (cleanupParseArgs []) true
    [mkReq "1" "a@b.co" "bogus"] [mkReq "1" "a@b.co" "bogus"] false (by decide)

/-- Helper: `List.any` is invariant under permutation. -/
theorem perm_any_eq {α : Type} (p : α → Bool) {l₁ l₂ : List α} (h : l₁.Perm l₂) :
    l₁.any p = l₂.any p := by
  cases h2 : l₂.any p
  · rw [List.any_eq_false] at h2 ⊢
    intro x hx
    exact h2 x (h.mem_iff.mp hx)
  · rw [List.any_eq_true] at h2 ⊢
    rcases h2 with ⟨x, hx, hpx⟩
    exact ⟨x, h.mem_iff.mpr hx, hpx⟩

/-- Helper: `find?` returns the unique element satisfying the predicate,
in whatever order the list presents it. -/
theorem find?_eq_some_of_unique {α : Type} (p : α → Bool) (a : α) :
    ∀ l : List α, a ∈ l → p a = true → (∀ b ∈ l, p b = true → b = a) →
      l.find? p = some a := by
  intro l
  induction l with
  | nil => intro h; simp at h
  | cons hd tl ih =>
      intro hmem hpa huniq
      by_cases hph : p hd = true
      · rw [List.find?_cons_of_pos _ hph]
        exact congrArg some (huniq hd (List.mem_cons_self hd tl) hph)
      · rw [List.find?_cons_of_neg _ hph]
        rcases List.mem_cons.mp hmem with h | h
        · exact absurd (h ▸ hpa) hph
        · exact ih h hpa (fun b hb => huniq b (List.mem_cons_of_mem _ hb))

/-- C9: if the previous snapshot holds exactly records with ids 1, 2, 3 and
the next snapshot holds exactly the records with ids 2, 3, 4, where record
2 carries a changed `updated_at` and record 3 an unchanged one, then the
diff emits exactly three change events: one INSERT for id 4, one UPDATE
for id 2 and one DELETE for id 1. -/
theorem detectChanges_scenario (prev next : List ServiceRequest)
    (r1 r2 r3 r2n r3n r4 : ServiceRequest)
    (hprev : prev.Perm [r1, r2, r3]) (hnext : next.Perm [r2n, r3n, r4])
    (h1 : r1.id = "1") (h2 : r2.id = "2") (h3 : r3.id = "3")
    (h2n : r2n.id = "2") (h3n : r3n.id = "3") (h4 : r4.id = "4")
    (hu2 : r2n.updated_at ≠ r2.updated_at) (hu3 : r3n.updated_at = r3.updated_at) :
    (detectChanges prev next).Perm
        [⟨ChangeType.insert, r4⟩, ⟨ChangeType.update, r2n⟩, ⟨ChangeType.delete, r1⟩] ∧
      (detectChanges prev next).length = 3 := by
  have a2 : prev.any (fun p => p.id == r2n.id) = true := by
    rw [perm_any_eq _ hprev]
    simp [h2, h2n]
  have a3 : prev.any (fun p => p.id == r3n.id) = true := by
    rw [perm_any_eq _ hprev]
    simp [h3, h3n]
  have a4 : prev.any (fun p => p.id == r4.id) = false := by
    rw [perm_any_eq _ hprev]
    simp [h1, h2, h3, h4]
  have hins : (next.filter (fun r => !(prev.any (fun p => p.id == r.id)))).Perm [r4] := by
    have hp := List.Perm.filter (fun r => !(prev.any (fun p => p.id == r.id))) hnext
    have hval :
        ([r2n, r3n, r4].filter (fun r => !(prev.any (fun p => p.id == r.id)))) = [r4] := by
      simp [List.filter, a2, a3, a4]
    rw [hval] at hp
    exact hp
  have f2 : prev.find? (fun p => p.id == r2n.id) = some r2 := by
    refine find?_eq_some_of_unique _ r2 prev (hprev.mem_iff.mpr (by simp)) (by simp [h2, h2n])
      ?_
    intro b hb hpb
    have hbmem := hprev.mem_iff.mp hb
    have hbid : b.id = r2n.id := by simpa using hpb
    rcases List.mem_cons.mp hbmem with hb1 | hbmem
    · exact absurd (hb1 ▸ hbid) (by simp [h1, h2n])
    rcases List.mem_cons.mp hbmem with hb2 | hbmem
    · exact hb2
    rcases List.mem_cons.mp hbmem with hb3 | hbmem
    · exact absurd (hb3 ▸ hbid) (by simp [h3, h2n])
    · simp at hbmem
  have f3 : prev.find? (fun p => p.id == r3n.id) = some r3 := by
    refine find?_eq_some_of_unique _ r3 prev (hprev.mem_iff.mpr (by simp)) (by simp [h3, h3n])
      ?_
    intro b hb hpb
    have hbmem := hprev.mem_iff.mp hb
    have hbid : b.id = r3n.id := by simpa using hpb
    rcases List.mem_cons.mp hbmem with hb1 | hbmem
    · exact absurd (hb1 ▸ hbid) (by simp [h1, h3n])
    rcases List.mem_cons.mp hbmem with hb2 | hbmem
    · exact absurd (hb2 ▸ hbid) (by simp [h2, h3n])
    rcases List.mem_cons.mp hbmem with hb3 | hbmem
    · exact hb3
    · simp at hbmem
  have f4 : prev.find? (fun p => p.id == r4.id) = none := by
    rw [List.find?_eq_none]
    intro b hb hpb
    have hbmem := hprev.mem_iff.mp hb
    have hbid : b.id = r4.id := by simpa using hpb
    rcases List.mem_cons.mp hbmem with hb1 | hbmem
    · exact absurd (hb1 ▸ hbid) (by simp [h1, h4])
    rcases List.mem_cons.mp hbmem with hb2 | hbmem
    · exact absurd (hb2 ▸ hbid) (by simp [h2, h4])
    rcases List.mem_cons.mp hbmem with hb3 | hbmem
    · exact absurd (hb3 ▸ hbid) (by simp [h3, h4])
    · simp at hbmem
  have hupd : (next.filterMap (updateEvent prev)).Perm [⟨ChangeType.update, r2n⟩] := by
    have hp := List.Perm.filterMap (updateEvent prev) hnext
    have hval : ([r2n, r3n, r4].filterMap (updateEvent prev)) =
        [⟨ChangeType.update, r2n⟩] := by
      simp [List.filterMap, updateEvent, f2, f3, f4, Ne.symm hu2, hu3]
    rw [hval] at hp
    exact hp
  have b1 : next.any (fun r => r.id == r1.id) = false := by
    rw [perm_any_eq _ hnext]
    simp [h1, h2n, h3n, h4]
  have b2 : next.any (fun r => r.id == r2.id) = true := by
    rw [perm_any_eq _ hnext]
    simp [h2, h2n]
  have b3 : next.any (fun r => r.id == r3.id) = true := by
    rw [perm_any_eq _ hnext]
    simp [h3, h3n]
  have hdel : (prev.filter (fun p => !(next.any (fun r => r.id == p.id)))).Perm [r1] := by
    have hp := List.Perm.filter (fun p => !(next.any (fun r => r.id == p.id))) hprev
    have hval :
        ([r1, r2, r3].filter (fun p => !(next.any (fun r => r.id == p.id)))) = [r1] := by
      simp [List.filter, b1, b2, b3]
    rw [hval] at hp
    exact hp
  have hperm : (detectChanges prev next).Perm
      [⟨ChangeType.insert, r4⟩, ⟨ChangeType.update, r2n⟩, ⟨ChangeType.delete, r1⟩] := by
    unfold detectChanges
    have hinsE := List.Perm.map (fun r => (⟨ChangeType.insert, r⟩ : ChangeEvent)) hins
    have hdelE := List.Perm.map (fun r => (⟨ChangeType.delete, r⟩ : ChangeEvent)) hdel
    have hcomb := List.Perm.append hinsE (List.Perm.append hupd hdelE)
    simpa using hcomb
  exact ⟨hperm, by simp [hperm.length_eq]⟩

/-- C9 witness: concrete snapshots with ids 1,2,3 and 2,3,4 where id 2 has
a new `updated_at` yield exactly the three expected events. -/
theorem detectChanges_scenario_witness :
    (detectChanges
        [mkReq "1" "a@b.co" "pending", mkReq "2" "c@d.co" "pending",
          mkReq "3" "e@f.co" "pending"]
        [{ mkReq "2" "c@d.co" "pending" with updated_at := "2025-01-03T00:00:00Z" },
          mkReq "3" "e@f.co" "pending", mkReq "4" "g@h.co" "pending"]).length = 3 :=
  (detectChanges_scenario
    [mkReq "1" "a@b.co" "pending", mkReq "2" "c@d.co" "pending",
      mkReq "3" "e@f.co" "pending"]
    [{ mkReq "2" "c@d.co" "pending" with updated_at := "2025-01-03T00:00:00Z" },
      mkReq "3" "e@f.co" "pending", mkReq "4" "g@h.co" "pending"]
    (mkReq "1" "a@b.co" "pending") (mkReq "2" "c@d.co" "pending")
    (mkReq "3" "e@f.co" "pending")
    { mkReq "2" "c@d.co" "pending" with updated_at := "2025-01-03T00:00:00Z" }
    (mkReq "3" "e@f.co" "pending") (mkReq "4" "g@h.co" "pending")
    (by decide) (by decide) rfl rfl rfl rfl rfl rfl (by decide) rfl).2

/-- Helper: list membership test as a decidable membership. -/
theorem contains_eq_decide_mem (l : List String) (a : String) :
    l.contains a = decide (a ∈ l) := by
  by_cases h : a ∈ l <;> simp [h]

/-- Specification of the duplicate partition, written from the spec text:
walking the input in order, a record is flagged as a duplicate exactly when
some record of the prefix before it (an earlier occurrence, in input order)
carries the same normalized duplicate key; in particular a first occurrence
is never flagged, since no earlier record shares its key. -/
def dupsWithPrefix (env : JsEnv) : List ServiceRequest → List ServiceRequest →
    List ServiceRequest
  | _, [] => []
  | pre, r :: rest =>
      (if ((pre.map (dupKey env)).contains (dupKey env r)) then [r] else []) ++
        dupsWithPrefix env (pre ++ [r]) rest

/-- The duplicate partition demanded by the spec: occurrences preceded by
an equal-key record, in input order, starting from the empty prefix. -/
def duplicatesSpec (env : JsEnv) (data : List ServiceRequest) : List ServiceRequest :=
  dupsWithPrefix env [] data

/-- Helper: adding a key to the seen set (only when absent) keeps it
membership-equivalent to the keys of the extended prefix. -/
theorem seen_update_contains (seen ks : List String) (k a : String)
    (hseen : ∀ b : String, seen.contains b = ks.contains b) :
    (if seen.contains k then seen else k :: seen).contains a = (ks ++ [k]).contains a := by
  have hmem : ∀ b : String, b ∈ seen ↔ b ∈ ks := by
    intro b
    have h := hseen b
    rw [contains_eq_decide_mem, contains_eq_decide_mem] at h
    exact decide_eq_decide.mp h
  by_cases hck : seen.contains k = true
  · rw [if_pos hck, contains_eq_decide_mem, contains_eq_decide_mem]
    refine decide_eq_decide.mpr ?_
    have hkmem : k ∈ ks := by
      have h1 : ks.contains k = true := (hseen k).symm.trans hck
      rw [contains_eq_decide_mem] at h1
      exact of_decide_eq_true h1
    simp only [List.mem_append, List.mem_cons, List.not_mem_nil, or_false]
    constructor
    · exact fun h => Or.inl ((hmem a).mp h)
    · rintro (h | h)
      · exact (hmem a).mpr h
      · exact (hmem a).mpr (h ▸ hkmem)
  · rw [if_neg hck, contains_eq_decide_mem, contains_eq_decide_mem]
    refine decide_eq_decide.mpr ?_
    simp only [List.mem_cons, List.mem_append, List.not_mem_nil, or_false]
    constructor
    · rintro (h | h)
      · exact Or.inr h
      · exact Or.inl ((hmem a).mp h)
    · rintro (h | h)
      · exact Or.inr ((hmem a).mpr h)
      · exact Or.inl h

/-- Helper: the `emailsSeen` set of `analyzeData` tracks exactly the
duplicate keys of the processed prefix, so the fold produces the
prefix-based duplicate partition. -/
theorem analyze_foldl_duplicates (env : JsEnv) (opts : CleanupOptions) :
    ∀ (data : List ServiceRequest) (rep : CleanupReport) (seen : List String)
      (pre : List ServiceRequest),
      (∀ a : String, seen.contains a = ((pre.map (dupKey env)).contains a)) →
      ((data.foldl (analyzeStep env opts) (rep, seen)).1).duplicates
        = rep.duplicates ++ dupsWithPrefix env pre data := by
  intro data
  induction data with
  | nil => intro rep seen pre _; simp [dupsWithPrefix]
  | cons r rest ih =>
      intro rep seen pre hseen
      have hc : seen.contains (dupKey env r) = (pre.map (dupKey env)).contains (dupKey env r) :=
        hseen (dupKey env r)
      have hstep : analyzeStep env opts (rep, seen) r =
          ({ invalidStatus :=
               rep.invalidStatus ++ (if validStatuses.contains r.status then [] else [r])
             invalidPriority :=
               rep.invalidPriority ++ (if validPriorities.contains r.priority then [] else [r])
             invalidEmail :=
               rep.invalidEmail ++
                 (if r.email = "" ∨ env.emailOk r.email = false then [r] else [])
             oldRecords := rep.oldRecords ++ (if isOldRecord env opts r then [r] else [])
             cancelledRecords :=
               rep.cancelledRecords ++
                 (if opts.removeCancelled && r.status == "cancelled" then [r] else [])
             duplicates :=
               rep.duplicates ++ (if seen.contains (dupKey env r) then [r] else []) },
           if seen.contains (dupKey env r) then seen else dupKey env r :: seen) := rfl
      have hseen' :
          ∀ a : String,
            (if seen.contains (dupKey env r) then seen
              else dupKey env r :: seen).contains a
              = (((pre ++ [r]).map (dupKey env)).contains a) := by
        intro a
        have h := seen_update_contains seen (pre.map (dupKey env)) (dupKey env r) a hseen
        simpa [List.map_append] using h
      rw [List.foldl_cons, hstep, ih _ _ (pre ++ [r]) hseen']
      simp only [dupsWithPrefix, hc]
      simp [List.append_assoc]

/-- C6: the duplicate partition computed by `analyzeData` is exactly the
partition demanded by the spec: for every input record list, an occurrence
is flagged as duplicate precisely when an earlier record in input order
carries the same normalized key (email, service type, calendar day), so
every occurrence except the first is flagged and the first never is; the
flagged occurrences are reported in input order. -/
theorem analyzeData_duplicates_characterization (env : JsEnv) (opts : CleanupOptions)
    (data : List ServiceRequest) :
    (analyzeData env data opts).duplicates = duplicatesSpec env data := by
  have h := analyze_foldl_duplicates env opts data emptyReport [] []
    (fun a => rfl)
  simpa [analyzeData, duplicatesSpec, emptyReport] using h

/-- Helper: the 32-bit wrap is the identity modulo `2 ^ 32`. -/
theorem toInt32_cast (x : Int) :
    ((toInt32 x : Int) : ZMod (2 ^ 32)) = (x : ZMod (2 ^ 32)) := by
  unfold toInt32
  push_cast
  have h : (4294967296 : ℤ) = ((2 ^ 32 : ℕ) : ℤ) := by norm_num
  rw [h, ZMod.intCast_mod]
  push_cast
  ring

/-- Helper: one hash step is multiplication by 31 plus the code unit,
modulo `2 ^ 32`. -/
theorem hashStep_cast (h : Int) (c : Nat) :
    ((hashStep h c : Int) : ZMod (2 ^ 32)) =
      31 * (h : ZMod (2 ^ 32)) + (c : ZMod (2 ^ 32)) := by
  unfold hashStep
  rw [toInt32_cast]
  push_cast
  rw [toInt32_cast]
  push_cast
  ring

/-- Helper: hashing the same tail from two different accumulators
multiplies their difference by `31 ^ length`, modulo `2 ^ 32`. -/
theorem foldl_hashStep_cast_sub (t : List Nat) :
    ∀ h₁ h₂ : Int,
      ((t.foldl hashStep h₁ : Int) : ZMod (2 ^ 32)) -
          ((t.foldl hashStep h₂ : Int) : ZMod (2 ^ 32)) =
        31 ^ t.length * ((h₁ : ZMod (2 ^ 32)) - (h₂ : ZMod (2 ^ 32))) := by
  induction t with
  | nil =>
      intro h₁ h₂
      simp
  | cons c t ih =>
      intro h₁ h₂
      simp only [List.foldl_cons, List.length_cons]
      rw [ih, hashStep_cast, hashStep_cast]
      ring

/-- Helper: a power of 31 times a small non-zero difference does not
vanish modulo `2 ^ 32`, since 31 is invertible there. -/
theorem pow31_mul_sub_ne_zero (k : Nat) (c c' : Nat) (hc : c < 2 ^ 32)
    (hc' : c' < 2 ^ 32) (hne : c ≠ c') :
    (31 : ZMod (2 ^ 32)) ^ k * ((c : ZMod (2 ^ 32)) - (c' : ZMod (2 ^ 32))) ≠ 0 := by
  intro h0
  have hcast : (((31 ^ k * ((c : ℤ) - (c' : ℤ)) : ℤ)) : ZMod (2 ^ 32)) = 0 := by
    push_cast
    exact h0
  rw [ZMod.intCast_zmod_eq_zero_iff_dvd] at hcast
  have hdvdAbs : (2 ^ 32 : ℕ) ∣ ((31 : ℤ) ^ k * ((c : ℤ) - c')).natAbs := by
    have h := Int.natAbs_dvd_natAbs.mpr hcast
    simpa using h
  rw [Int.natAbs_mul] at hdvdAbs
  have hpow : ((31 : ℤ) ^ k).natAbs = 31 ^ k := by
    simp [Int.natAbs_pow]
  rw [hpow] at hdvdAbs
  have hco : Nat.Coprime (2 ^ 32) (31 ^ k) :=
    Nat.Coprime.pow_right k (by decide)
  have hdvd2 : (2 ^ 32 : ℕ) ∣ ((c : ℤ) - c').natAbs :=
    Nat.Coprime.dvd_of_dvd_mul_left hco hdvdAbs
  have hne0 : ((c : ℤ) - c').natAbs ≠ 0 := by omega
  have hlt : ((c : ℤ) - c').natAbs < 2 ^ 32 := by omega
  have hge := Nat.le_of_dvd (Nat.pos_of_ne_zero hne0) hdvd2
  omega

/-- Helper: `restoreBackup` reports a mismatch exactly when the
recomputed checksum differs from the stored one, in every mode. -/
theorem restoreRun_mismatchReported (opts : RestoreOptions) (b : BackupData)
    (answer : Bool) (store : List ServiceRequest) :
    (restoreRun opts b answer store).mismatchReported
      = decide (simpleHash b.dataString ≠ b.checksum) := by
  unfold restoreRun
  by_cases hm : simpleHash b.dataString = b.checksum <;>
    by_cases hfo : opts.force = false <;> split_ifs <;> cases answer <;> simp_all

/-- C2 amended: mutating a single code unit of the serialized payload
always changes the signed 32-bit hash value, and `restoreBackup` reports a
checksum mismatch exactly when the recomputed checksum differs from the
stored one.  (The reported checksum is the absolute value of the signed
hash, so a mutation that exactly negates the hash — see the recorded
counterexample — collides and is not detected.) -/
theorem jsHash_mutation_and_mismatch_report :
    (∀ (p t : List Nat) (c c' : Nat), c < 2 ^ 32 → c' < 2 ^ 32 → c ≠ c' →
        jsHash (p ++ c :: t) ≠ jsHash (p ++ c' :: t)) ∧
    (∀ (opts : RestoreOptions) (b : BackupData) (answer : Bool)
        (store : List ServiceRequest),
        ((restoreRun opts b answer store).mismatchReported = true ↔
          simpleHash b.dataString ≠ b.checksum)) := by
  constructor
  · intro p t c c' hc hc' hne heq
    rw [jsHash, jsHash, List.foldl_append, List.foldl_append, List.foldl_cons,
      List.foldl_cons] at heq
    have hd := foldl_hashStep_cast_sub t (hashStep (List.foldl hashStep 0 p) c)
      (hashStep (List.foldl hashStep 0 p) c')
    rw [heq, sub_self, hashStep_cast, hashStep_cast] at hd
    have hz : (31 : ZMod (2 ^ 32)) ^ t.length *
        ((c : ZMod (2 ^ 32)) - (c' : ZMod (2 ^ 32))) = 0 := by
      calc (31 : ZMod (2 ^ 32)) ^ t.length * ((c : ZMod (2 ^ 32)) - (c' : ZMod (2 ^ 32)))
          = 31 ^ t.length *
              (31 * ((List.foldl hashStep 0 p : Int) : ZMod (2 ^ 32)) + c -
                (31 * ((List.foldl hashStep 0 p : Int) : ZMod (2 ^ 32)) + c')) := by
            ring
        _ = 0 := hd.symm
    exact pow31_mul_sub_ne_zero t.length c c' hc hc' hne hz
  · intro opts b answer store
    rw [restoreRun_mismatchReported]
    by_cases h : simpleHash b.dataString = b.checksum <;> simp [h]

/-- C2 amended witness: two one-unit strings with different code units
hash differently, and a backup with a wrong stored checksum is reported. -/
theorem jsHash_mutation_and_mismatch_report_witness :
    jsHash ([] ++ 0 :: []) ≠ jsHash ([] ++ 1 :: []) ∧
    ((restoreRun ⟨none, true, false⟩ ⟨0, [1], []⟩ true []).mismatchReported = true ↔
      simpleHash [1] ≠ 0) :=
  ⟨jsHash_mutation_and_mismatch_report.1 [] [] 0 1 (by decide) (by decide) (by decide),
    jsHash_mutation_and_mismatch_report.2 ⟨none, true, false⟩ ⟨0, [1], []⟩ true []⟩

/-- The UTF-16 code units of the first 176 characters of the canonical
JSON serialization of a backup data section:
`{"service_requests":[{"id":"0f3a","first_name":"Ana","last_name":"Lima","email":"ana@example.com","phone":"11987654321","service_type":"excel","description":"backup seed $tm|eh` -/
def collisionPrefix : List Nat :=
  [123, 34, 115, 101, 114, 118, 105, 99, 101, 95, 114, 101, 113, 117, 101,
   115, 116, 115, 34, 58, 91, 123, 34, 105, 100, 34, 58, 34, 48, 102,
   51, 97, 34, 44, 34, 102, 105, 114, 115, 116, 95, 110, 97, 109, 101,
   34, 58, 34, 65, 110, 97, 34, 44, 34, 108, 97, 115, 116, 95, 110, 97,
   109, 101, 34, 58, 34, 76, 105, 109, 97, 34, 44, 34, 101, 109, 97,
   105, 108, 34, 58, 34, 97, 110, 97, 64, 101, 120, 97, 109, 112, 108,
   101, 46, 99, 111, 109, 34, 44, 34, 112, 104, 111, 110, 101, 34, 58,
   34, 49, 49, 57, 56, 55, 54, 53, 52, 51, 50, 49, 34, 44, 34, 115, 101,
   114, 118, 105, 99, 101, 95, 116, 121, 112, 101, 34, 58, 34, 101, 120,
   99, 101, 108, 34, 44, 34, 100, 101, 115, 99, 114, 105, 112, 116, 105,
   111, 110, 34, 58, 34, 98, 97, 99, 107, 117, 112, 32, 115, 101, 101,
   100, 32, 36, 116, 109, 124, 101, 104]

/-- The code units of the closing characters of that serialization. -/
def collisionSuffix : List Nat :=
  [34, 125, 93, 125]

/-- The full serialized payload, description `backup seed $tm|ehc`: the
176-unit prefix, the letter c (code 99), and the closing suffix.  Its
signed 32-bit hash is 923521. -/
def collisionPayload : List Nat :=
  collisionPrefix ++ 99 :: collisionSuffix

/-- The payload with its single byte at index 176 mutated from the letter
c (code 99) to the letter a (code 97): the serialization of the same
backup with description `backup seed $tm|eha`, still canonical JSON.  Its
signed 32-bit hash is -923521, the exact negation of the original, so the
absolute-value checksum collides. -/
def collisionMutated : List Nat :=
  collisionPrefix ++ 97 :: collisionSuffix

/-- The mutated backup file as the restore script sees it: the stored
metadata checksum computed over the original payload, and the mutated
serialized data section. -/
def collisionBackup : BackupData :=
  ⟨simpleHash collisionPayload, collisionMutated, []⟩

set_option maxRecDepth 2000 in
/-- C2 counterexample: mutating one byte of this backup payload (code 99
to code 97 at index 176) does not change the recomputed checksum — the
signed hash flips from 923521 to -923521 and `Math.abs` erases the sign —
and a live restore of the mutated file against the original stored
checksum reports no mismatch, refuting the claim for this backup file and
this single-byte mutation. -/
theorem simpleHash_single_byte_collision_cex :
    collisionPrefix.length = 176 ∧
    collisionPayload = collisionPrefix ++ 99 :: collisionSuffix ∧
    collisionMutated = collisionPrefix ++ 97 :: collisionSuffix ∧
    (99 : Nat) ≠ 97 ∧
    jsHash collisionPayload = 923521 ∧
    jsHash collisionMutated = -923521 ∧
    simpleHash collisionMutated = simpleHash collisionPayload ∧
    (restoreRun ⟨none, false, false⟩ collisionBackup true
        []).mismatchReported = false := by
  have hpre : List.foldl hashStep 0 collisionPrefix = 1501708061 := by
    norm_num [collisionPrefix, hashStep, toInt32]
  have h5 : jsHash collisionPayload = 923521 := by
    rw [jsHash, collisionPayload, List.foldl_append, hpre]
    norm_num [collisionSuffix, hashStep, toInt32]
  have h6 : jsHash collisionMutated = -923521 := by
    rw [jsHash, collisionMutated, List.foldl_append, hpre]
    norm_num [collisionSuffix, hashStep, toInt32]
  have h7 : simpleHash collisionMutated = simpleHash collisionPayload := by
    rw [simpleHash, simpleHash, h5, h6]
    decide
  have hb1 : collisionBackup.dataString = collisionMutated := by
    simp only [collisionBackup]
  have hb2 : collisionBackup.checksum = simpleHash collisionPayload := by
    simp only [collisionBackup]
  have h8 : (restoreRun ⟨none, false, false⟩ collisionBackup true
      []).mismatchReported = false := by
    rw [restoreRun_mismatchReported, hb1, hb2, decide_eq_false_iff_not]
    intro hcon
    exact hcon h7
  exact ⟨by norm_num [collisionPrefix], rfl, rfl, by norm_num, h5, h6, h7, h8⟩
